import Mathlib

/-!
Verification of the image-preprocessing pipeline in `preprocessing.py`
(grayscale retinal-fundus normalization: thresholding, Hough-circle masking,
notch detection, bounding-box scale normalization).

Images are embedded as total pixel functions `Nat → Nat → Nat` (row, column →
intensity); the dimensions of a concrete array are passed explicitly where a
property depends on them.  Calls into the vision library (OpenCV) are embedded
as Lean functions modelling the library's documented semantics; calls whose
numeric output the script merely forwards (`cv.HoughCircles`,
`cv.boundingRect`) are parametrised by their result.  Python exceptions are
embedded with `Except`.
-/

namespace Preprocessing

/-- A grayscale image: intensity at (row, column). -/
abbrev Image := Nat → Nat → Nat

/-- Standard resolution of images after processing (`STD_RES = 512`). -/
def STD_RES : Nat := 512

/-- Thresholding parameter (`THRESH = 30`). -/
def THRESH : Nat := 30

/-- Kinds of Python-level failures the script can hit.  `indexError` is the
Python exception for an out-of-range sequence access; `cvAssertionError` is
the error OpenCV raises when an input assertion fails (`cv2.error`).  The
remaining three are the error classes the design documentation prescribes. -/
inductive PyErr where
  | indexError
  | cvAssertionError
  | noCircleDetectedError
  | invalidFormatError
  | degenerateBoundingBoxError
  deriving DecidableEq

/-- Models `cv.threshold(src, t, maxval, cv.THRESH_BINARY)` on a grayscale
image: per OpenCV's documentation the destination pixel is `maxval` when the
source pixel is strictly greater than `t`, and `0` otherwise. -/
def cv_threshold_binary (img : Image) (t maxval : Nat) : Image :=
  fun i j => if t < img i j then maxval else 0

/-- `threshold` from `preprocessing.py`: thresholds the image according to the
global parameter (`cv.threshold(img, THRESH, 255, cv.THRESH_BINARY)`). -/
def threshold (img : Image) : Image :=
  cv_threshold_binary img THRESH 255

/-- The constant image whose every pixel has intensity exactly `THRESH`. -/
def constThirty : Image := fun _ _ => 30

/-- Claim C2 (counterexample): the claim says a pixel whose intensity is *at*
the cutoff becomes 255, but `cv.THRESH_BINARY` uses a strict comparison, so a
pixel of intensity exactly `THRESH = 30` becomes 0, not 255. -/
theorem threshold_at_cutoff_zero :
    THRESH ≤ constThirty 0 0 ∧ threshold constThirty 0 0 = 0 ∧ (0 : Nat) ≠ 255 := by
  refine ⟨by decide, by decide, by decide⟩

/-- Claim C2 (amended): the thresholder returns a binary image in which every
pixel strictly above the cutoff becomes max intensity 255 and every other
pixel (at or below the cutoff) becomes 0. -/
theorem threshold_binary_strict (img : Image) (i j : Nat) :
    (threshold img i j = 255 ∨ threshold img i j = 0) ∧
    (threshold img i j = 255 ↔ THRESH < img i j) ∧
    (threshold img i j = 0 ↔ img i j ≤ THRESH) := by
  unfold threshold cv_threshold_binary
  by_cases h : THRESH < img i j
  · simp [h]
  · simp [h, Nat.le_of_not_lt h]

/-- Claim C3: applying the thresholder twice with the same cutoff yields the
same image as applying it once (binary output is a fixed point). -/
theorem threshold_idempotent (img : Image) :
    threshold (threshold img) = threshold img := by
  funext i j
  unfold threshold cv_threshold_binary
  by_cases h : (30 : Nat) < img i j
  · simp [THRESH, h]
  · simp [THRESH, h]

/-- Models `cv.rectangle(img, pt1, pt2, color, thickness=cv.FILLED)` on a
grayscale image, with the two opposite corners already normalised so that
`(x1, y1)` is the top-left and `(x2, y2)` the bottom-right corner (OpenCV
accepts the corners in either order).  OpenCV's drawing functions include both
corner pixels, so the filled region is the inclusive range
`x1 ≤ x ≤ x2`, `y1 ≤ y ≤ y2` (clipped to the array by the caller's bounds). -/
def cv_rectangle_filled (img : Image) (x1 y1 x2 y2 : Nat) (color : Nat) : Image :=
  fun i j => if y1 ≤ i ∧ i ≤ y2 ∧ x1 ≤ j ∧ j ≤ x2 then color else img i j

/-- The masking step of `hough_circles` in `preprocessing.py`, for an image of
`h` rows and `w` columns:
`cv.rectangle(img, (0, 0), (half_w, h), 0, FILLED)` followed by
`cv.rectangle(img, (0, h), (w, half_h), 0, FILLED)`
with `half_h = int(h / 2)`, `half_w = int(w / 2)` (the second call's corners
are normalised to top-left `(0, half_h)`, bottom-right `(w, h)`). -/
def hough_mask (h w : Nat) (img : Image) : Image :=
  cv_rectangle_filled (cv_rectangle_filled img 0 0 (w / 2) h 0) 0 (h / 2) w h 0

/-- A raw circle as produced by `cv.HoughCircles`: a 3-vector whose components
`c[0], c[1], c[2]` are centre-x, centre-y, radius. -/
abbrev RawCircle := Fin 3 → ℚ

/-- A circle in the script's list-of-tuples format `(x, y, radius)`. -/
abbrev Circle := ℚ × ℚ × ℚ

/-- The output-conversion loop of `hough_circles`: `cv.HoughCircles` returns
either `None` or an array of circles (the source unwraps the array's redundant
outer dimension with `circles[0]`); the loop appends `(c[0], c[1], c[2])` for
each raw circle in order, starting from the empty list. -/
def hough_output (raw : Option (List RawCircle)) : List Circle :=
  match raw with
  | none => []
  | some cs => cs.map (fun c => (c 0, c 1, c 2))

/-- `hough_circles` from `preprocessing.py`, embedded with explicit state
passing for its in-place mutation of the caller's array: it masks the image
with two filled rectangles and converts the transform's result to a list of
tuples.  `raw` parametrises the result of the external call
`cv.HoughCircles(img, ...)` on the masked image.  The returned pair is
(the caller's image after the call, the circle list). -/
def hough_circles (h w : Nat) (img : Image) (raw : Option (List RawCircle)) :
    Image × List Circle :=
  (hough_mask h w img, hough_output raw)

/-- The constant all-white image. -/
def constWhite : Image := fun _ _ => 255

/-- Claim C4 (counterexample): on a 4×4 all-white image, the claim puts pixel
(row 3, column 3) outside the zeroed region (it is neither in the left half
`x < 2` nor in the bottom-left quadrant) and so predicts it is unchanged at
255; the code's second rectangle spans the full width of the bottom half and
zeroes it. -/
theorem hough_mask_bottom_right_zeroed :
    ¬ (3 < 4 / 2) ∧ ¬ (3 < 4 / 2 ∧ 4 / 2 ≤ 3) ∧ constWhite 3 3 = 255 ∧
    hough_mask 4 4 constWhite 3 3 = 0 ∧ (0 : Nat) ≠ 255 := by
  refine ⟨by decide, by decide, by decide, ?_, by decide⟩
  simp [hough_mask, cv_rectangle_filled, constWhite]

/-- Claim C4 (amended): for an h×w image the masking step of the circle
detector zeroes exactly the pixels with column `x ≤ ⌊w/2⌋` (the left half plus
the centre column, across the full height) together with the pixels with row
`y ≥ ⌊h/2⌋` (the entire bottom half, across the full width), leaving the
remaining top-right region unchanged; the zeroing is reflected in the caller's
image returned by `hough_circles` (in-place mutation). -/
theorem hough_circles_mask_spec (h w : Nat) (img : Image)
    (raw : Option (List RawCircle)) (i j : Nat) (hi : i < h) (hj : j < w) :
    (hough_circles h w img raw).1 i j =
      if j ≤ w / 2 ∨ h / 2 ≤ i then 0 else img i j := by
  unfold hough_circles hough_mask cv_rectangle_filled
  dsimp only
  by_cases h1 : h / 2 ≤ i
  · have : h / 2 ≤ i ∧ i ≤ h ∧ 0 ≤ j ∧ j ≤ w := ⟨h1, Nat.le_of_lt hi, Nat.zero_le _, Nat.le_of_lt hj⟩
    simp [this, h1]
  · by_cases h2 : j ≤ w / 2
    · have hn : ¬ (h / 2 ≤ i ∧ i ≤ h ∧ 0 ≤ j ∧ j ≤ w) := fun hc => h1 hc.1
      have hp : 0 ≤ i ∧ i ≤ h ∧ 0 ≤ j ∧ j ≤ w / 2 :=
        ⟨Nat.zero_le _, Nat.le_of_lt hi, Nat.zero_le _, h2⟩
      simp [hn, hp, h2]
    · have hn : ¬ (h / 2 ≤ i ∧ i ≤ h ∧ 0 ≤ j ∧ j ≤ w) := fun hc => h1 hc.1
      have hp : ¬ (0 ≤ i ∧ i ≤ h ∧ 0 ≤ j ∧ j ≤ w / 2) := fun hc => h2 hc.2.2.2
      simp [hn, hp, h1, h2]

/-- Witness for `hough_circles_mask_spec`: on a concrete 4×4 all-white image,
pixel (row 0, column 3) lies in the active top-right region and is unchanged. -/
theorem hough_circles_mask_spec_witness :
    (hough_circles 4 4 constWhite none).1 0 3 =
      if 3 ≤ 4 / 2 ∨ 4 / 2 ≤ 0 then 0 else constWhite 0 3 :=
  hough_circles_mask_spec 4 4 constWhite none 0 3 (by decide) (by decide)

/-- Claim C5: when the Hough transform finds no circles (`None`), the circle
detector returns the empty list — a valid result, not an error; otherwise it
returns a list of `(x, y, radius)` tuples of the same length as the raw
detection result and in the same order (element `k` of the output is the tuple
of components of raw circle `k`). -/
theorem hough_circles_output_spec (h w : Nat) (img : Image) :
    (hough_circles h w img none).2 = [] ∧
    ∀ (cs : List RawCircle),
      (hough_circles h w img (some cs)).2.length = cs.length ∧
      ∀ k : Nat, ((hough_circles h w img (some cs)).2)[k]? =
        (cs[k]?).map (fun c => (c 0, c 1, c 2)) := by
  refine ⟨rfl, fun cs => ⟨?_, fun k => ?_⟩⟩
  · simp [hough_circles, hough_output]
  · simp [hough_circles, hough_output]

/-- The first-circle access in `experiment_notch_detection`:
`x, y, r = circles[0]` on the list returned by `hough_circles`.  In Python,
indexing an empty list raises `IndexError`. -/
def notch_first_circle (circles : List Circle) : Except PyErr Circle :=
  match circles with
  | [] => .error .indexError
  | c :: _ => .ok c

/-- The circle-access step of notch detection as a function of the Hough
transform's raw result: `experiment_notch_detection` calls `hough_circles`
and immediately indexes the first element of its result. -/
def experiment_notch_circle_access (raw : Option (List RawCircle)) :
    Except PyErr Circle :=
  notch_first_circle (hough_output raw)

/-- Claim C1 (code behaviour at the failing input): when circle detection
yields the empty list, notch detection performs the out-of-range access of the
first element and fails with a Python `IndexError` — not with a
`NoCircleDetectedError`, which the code never raises. -/
theorem notch_empty_circles_index_error :
    experiment_notch_circle_access none = .error .indexError ∧
    notch_first_circle [] = .error .indexError ∧
    (Except.error .indexError : Except PyErr Circle) ≠ .error .noCircleDetectedError := by
  refine ⟨rfl, rfl, by simp⟩

/-- The canvas-construction core of `bb_resize` (identical code also appears
in `experiment_bounding_box`), given the bounding rectangle `(x, y, w, h)`
returned by the external call `cv.boundingRect(threshold(img))`:
`max_wh = max(w, h)`; `img_expand = np.zeros((max_wh, max_wh))`;
`half_dw = floor((max_wh - w)/2)`; `half_dh = floor((max_wh - h)/2)`;
`img_expand[half_dh:half_dh+h, half_dw:half_dw+w] = img[y:y+h, x:x+w]`.
Returns (canvas side, canvas). -/
def bb_expand (img : Image) (x y w h : Nat) : Nat × Image :=
  (max w h, fun i j =>
    if (max w h - h) / 2 ≤ i ∧ i < (max w h - h) / 2 + h ∧
       (max w h - w) / 2 ≤ j ∧ j < (max w h - w) / 2 + w
    then img (y + (i - (max w h - h) / 2)) (x + (j - (max w h - w) / 2))
    else 0)

/-- Models the input validation of `cv.resize`: OpenCV asserts that the source
image is non-empty (`!ssize.empty()`) and raises `cv2.error` otherwise. -/
def cv_resize_check (srcH srcW : Nat) : Except PyErr Unit :=
  if srcH = 0 ∨ srcW = 0 then .error .cvAssertionError else .ok ()

/-- `bb_resize` from `preprocessing.py` up to the final
`cv.resize(img_expand, (STD_RES, STD_RES))` call, whose input validation is
modelled by `cv_resize_check` (the resized image itself is discarded by the
source: `img_resize` is never returned or stored, so the interpolated content
is not modelled).  Returns the canvas that reaches the resize, or the error
the resize raises. -/
def bb_resize (img : Image) (x y w h : Nat) : Except PyErr (Nat × Image) :=
  match cv_resize_check (bb_expand img x y w h).1 (bb_expand img x y w h).1 with
  | .ok _ => .ok (bb_expand img x y w h)
  | .error e => .error e

/-- Claim C6: for a bounding rectangle of positive width and height, the
normalizer's canvas is square with side `max w h`, its pixels inside the copy
region (top offset `⌊(side-h)/2⌋`, left offset `⌊(side-w)/2⌋`) hold the
corresponding pixels of the original (non-thresholded) image's bounding-box
region, every other canvas pixel is zero, and the trailing (bottom/right) pad
is at least the leading pad, carrying the extra pixel of an odd difference. -/
theorem bb_expand_centering (img : Image) (x y w h : Nat)
    (_hw : 0 < w) (_hh : 0 < h) :
    (bb_expand img x y w h).1 = max w h ∧
    (∀ i j, (max w h - h) / 2 ≤ i → i < (max w h - h) / 2 + h →
            (max w h - w) / 2 ≤ j → j < (max w h - w) / 2 + w →
            (bb_expand img x y w h).2 i j =
              img (y + (i - (max w h - h) / 2)) (x + (j - (max w h - w) / 2))) ∧
    (∀ i j, ¬ ((max w h - h) / 2 ≤ i ∧ i < (max w h - h) / 2 + h ∧
               (max w h - w) / 2 ≤ j ∧ j < (max w h - w) / 2 + w) →
            (bb_expand img x y w h).2 i j = 0) ∧
    (max w h - ((max w h - w) / 2 + w) = (max w h - w) - (max w h - w) / 2 ∧
     max w h - ((max w h - h) / 2 + h) = (max w h - h) - (max w h - h) / 2 ∧
     (max w h - w) / 2 ≤ (max w h - w) - (max w h - w) / 2 ∧
     (max w h - h) / 2 ≤ (max w h - h) - (max w h - h) / 2) := by
  refine ⟨rfl, fun i j h1 h2 h3 h4 => ?_, fun i j hn => ?_, ?_⟩
  · simp only [bb_expand]
    rw [if_pos ⟨h1, h2, h3, h4⟩]
  · simp only [bb_expand]
    rw [if_neg hn]
  · have hwle : w ≤ max w h := Nat.le_max_left w h
    have hhle : h ≤ max w h := Nat.le_max_right w h
    omega

/-- Witness for `bb_expand_centering`: a concrete 3-wide, 5-tall bounding box
at (x, y) = (1, 2); the canvas has side 5, the copy region starts at row 0 and
column 1, and pixel (0, 1) of the canvas holds pixel (row 2, column 1) of the
original image. -/
theorem bb_expand_centering_witness :
    (bb_expand (fun i j => 10 * i + j) 1 2 3 5).1 = max 3 5 ∧
    (bb_expand (fun i j => 10 * i + j) 1 2 3 5).2 0 1 =
      (fun i j => 10 * i + j) (2 + (0 - (max 3 5 - 5) / 2)) (1 + (1 - (max 3 5 - 3) / 2)) := by
  have hs := bb_expand_centering (fun i j => 10 * i + j) 1 2 3 5 (by decide) (by decide)
  exact ⟨hs.1, hs.2.1 0 1 (by decide) (by decide) (by decide) (by decide)⟩

/-- Claim C7 (code behaviour at the failing input): on a degenerate bounding
rectangle of zero width and height (as `cv.boundingRect` returns for an
all-background image), `bb_resize` allocates a zero-sized canvas (side
`max 0 0 = 0`) and then fails inside the library's resize with a `cv2.error`
assertion — it never raises a `DegenerateBoundingBoxError`. -/
theorem bb_resize_degenerate_behavior :
    (bb_expand constWhite 0 0 0 0).1 = 0 ∧
    bb_resize constWhite 0 0 0 0 = .error .cvAssertionError ∧
    (Except.error .cvAssertionError : Except PyErr (Nat × Image)) ≠
      .error .degenerateBoundingBoxError := by
  refine ⟨rfl, rfl, by simp⟩

/-- Models the size computation of `cv.resize(src, None, fx, fy)`: when no
destination size is given, OpenCV computes the output size by scaling the
source dimensions by the given factors and rounding to the nearest integer.
Arithmetic on the scale factors is modelled exactly over ℚ. -/
def cv_resize_scaled_dims (fx fy : ℚ) (h w : Nat) : Nat × Nat :=
  ((round (fy * (h : ℚ))).toNat, (round (fx * (w : ℚ))).toNat)

/-- The resize branch of `load_image` in `preprocessing.py`: the scale factor
is `ratio = float(STD_RES) / img_in.shape[0]` (resize based on height), and
the same factor is used for both axes (`fx=ratio, fy=ratio`).  Returns the
(height, width) of the loader's output for a source of `h` rows, `w` cols. -/
def load_image_resized_dims (h w : Nat) : Nat × Nat :=
  cv_resize_scaled_dims ((STD_RES : ℚ) / (h : ℚ)) ((STD_RES : ℚ) / (h : ℚ)) h w

/-- Claim C8: for any source image with positive height loaded with
`resize=true`, the loader's output height is exactly the standard resolution
512, and the output width is the source width scaled by the very same factor
(rounded), so the aspect ratio is preserved. -/
theorem load_image_resize_dims_spec (h w : Nat) (hpos : 0 < h) :
    (load_image_resized_dims h w).1 = STD_RES ∧
    (load_image_resized_dims h w).2 = (round (((STD_RES : ℚ) / (h : ℚ)) * (w : ℚ))).toNat := by
  constructor
  · have hne : (h : ℚ) ≠ 0 := Nat.cast_ne_zero.mpr hpos.ne'
    simp only [load_image_resized_dims, cv_resize_scaled_dims]
    rw [div_mul_cancel₀ _ hne]
    norm_num [STD_RES]
    decide
  · rfl

/-- Witness for `load_image_resize_dims_spec`: a 1024×768 source resizes to
height 512 and width 384 (factor 1/2). -/
theorem load_image_resize_dims_witness :
    (load_image_resized_dims 1024 768).1 = STD_RES ∧
    (load_image_resized_dims 1024 768).2 = 384 := by
  have hs := load_image_resize_dims_spec 1024 768 (by decide)
  refine ⟨hs.1, hs.2.trans ?_⟩
  norm_num [STD_RES]
  decide

/-- Models the input validation of `cv.equalizeHist`: OpenCV asserts the
source is 8-bit single-channel (`CV_8UC1`) and raises `cv2.error` on any
other channel count. -/
def cv_equalizeHist_check (channels : Nat) : Except PyErr Unit :=
  if channels = 1 then .ok () else .error .cvAssertionError

/-- The equalization step of `load_image`: when `equalize` is set the source
calls `cv.equalizeHist(img_in, img_in)` unconditionally, with no channel
check of its own; otherwise the step is skipped. -/
def load_image_equalize_step (equalize : Bool) (channels : Nat) : Except PyErr Unit :=
  if equalize then cv_equalizeHist_check channels else .ok ()

/-- Claim C9 (code behaviour at the failing input): loading a 3-channel color
image with `equalize=true` fails inside the library with a `cv2.error`
assertion — the loader performs no format check of its own and never raises
an `InvalidFormatError`. -/
theorem equalize_multichannel_error :
    load_image_equalize_step true 3 = .error .cvAssertionError ∧
    (Except.error .cvAssertionError : Except PyErr Unit) ≠ .error .invalidFormatError := by
  refine ⟨rfl, by simp⟩

/-- A 3-channel color image: (B, G, R) intensities at (row, column). -/
abbrev ColorImage := Nat → Nat → Nat × Nat × Nat

/-- Models `cv.cvtColor(src, cv.COLOR_GRAY2RGB)`: replicates the single
grayscale channel into all three channels of a fresh color image. -/
def cv_cvtColor_gray2rgb (img : Image) : ColorImage :=
  fun i j => (img i j, img i j, img i j)

/-- Models `cv.circle(img, (cx, cy), r, color, 2)`: paints the circle outline
of thickness 2 in the given color; a pixel is on the outline when its distance
from the centre lies within one pixel of the radius, other pixels keep their
value.  (The exact library rasterisation differs in sub-pixel detail; the
claims below do not depend on which pixels the outline covers.) -/
def cv_circle (img : ColorImage) (cx cy r : ℚ) (color : Nat × Nat × Nat) : ColorImage :=
  fun i j =>
    if (r - 1) ^ 2 ≤ ((j : ℚ) - cx) ^ 2 + ((i : ℚ) - cy) ^ 2 ∧
       ((j : ℚ) - cx) ^ 2 + ((i : ℚ) - cy) ^ 2 ≤ (r + 1) ^ 2
    then color else img i j

/-- The value `draw_hough_circles` returns, tagged by its identity:
`aliased` means the function returned the caller's own array unchanged
(the `else` branch `output = img`); `fresh` means it returned a newly
allocated 3-channel image (the branch that starts from `img.copy()`). -/
inductive DrawResult where
  | aliased (img : Image)
  | fresh (img : ColorImage)

/-- `draw_hough_circles` from `preprocessing.py`, with explicit state passing
for the caller's array: `if circles:` takes the drawing branch exactly when
the list is non-empty, converts a copy of the image to color, and draws each
circle in red on that copy; otherwise it returns the input object itself.
The second component is the caller's image after the call. -/
def draw_hough_circles (img : Image) (circles : List Circle) : DrawResult × Image :=
  if circles.isEmpty then (.aliased img, img)
  else (.fresh (circles.foldl
          (fun out c => cv_circle out c.1 c.2.1 c.2.2 (0, 0, 255))
          (cv_cvtColor_gray2rgb img)), img)

/-- Claim C10: `draw_hough_circles` never mutates the caller's image; on an
empty circle list it returns the caller's own array (aliased, no copy), and on
a non-empty list it returns a newly allocated 3-channel copy with the circles
drawn on it. -/
theorem draw_hough_circles_aliasing (img : Image) (circles : List Circle) :
    (draw_hough_circles img circles).2 = img ∧
    (circles = [] → (draw_hough_circles img circles).1 = .aliased img) ∧
    (circles ≠ [] → (draw_hough_circles img circles).1 =
      .fresh (circles.foldl
        (fun out c => cv_circle out c.1 c.2.1 c.2.2 (0, 0, 255))
        (cv_cvtColor_gray2rgb img))) := by
  refine ⟨?_, fun he => ?_, fun hne => ?_⟩
  · unfold draw_hough_circles
    by_cases h : circles.isEmpty <;> simp [h]
  · simp [draw_hough_circles, he]
  · simp [draw_hough_circles, List.isEmpty_iff, hne]

/-- Witness for `draw_hough_circles_aliasing`: on the concrete all-white image
the empty list yields the aliased input, and a one-circle list leaves the
caller's image unchanged. -/
theorem draw_hough_circles_aliasing_witness :
    (draw_hough_circles constWhite []).1 = .aliased constWhite ∧
    (draw_hough_circles constWhite [((3 : ℚ), (4 : ℚ), (2 : ℚ))]).2 = constWhite := by
  exact ⟨(draw_hough_circles_aliasing constWhite []).2.1 rfl,
         (draw_hough_circles_aliasing constWhite [((3 : ℚ), (4 : ℚ), (2 : ℚ))]).1⟩

end Preprocessing
